import Mathlib

/-!
Verification of the recipe-app client logic against its specification.

The development shallowly embeds the relevant parts of the repository:

* `src/src/App.jsx` — the error classifier `isRetryableError`, the
  user-facing error translation `getUserFriendlyError`, the retry helper
  `retryOperation`, the delete handler `handleDeleteRecipe` (the file
  contains two versions of the component; both delete handlers are
  embedded), and the search filter `filteredRecipes`;
* `src/src/Usetoast.js` — the toast queue (`addToast` / `removeToast`);
* `src/amplify/data/resource.ts` — the Recipe schema declaration;
* the CloudWatch logger module — buffer state, `flush` and `addLog`.

Stateful code is modelled by explicit state passing: every network send or
backend call outcome is a parameter of the embedded function, and each
method call is one atomic state transition.
-/

namespace RecipeApp

/-- Model of a JavaScript Error value.  Only the `message` field is
inspected by the code under verification; a missing or undefined message
is `none`. -/
structure JsError where
  message : Option String
deriving DecidableEq, Repr

/-- Character-wise lowercasing, the behaviour of
`String.prototype.toLowerCase` on the ASCII strings the code compares. -/
def jsToLower (s : String) : String :=
  String.mk (s.toList.map Char.toLower)

/-- Whether the second list occurs at the start of the first. -/
def startsWithSeq : List Char → List Char → Bool
  | _, [] => true
  | [], _ :: _ => false
  | c :: cs, d :: ds => c == d && startsWithSeq cs ds

/-- Whether the second list occurs contiguously anywhere in the first:
the semantics of `String.prototype.includes`. -/
def containsSeq : List Char → List Char → Bool
  | [], needle => startsWithSeq [] needle
  | hay@(_ :: cs), needle => startsWithSeq hay needle || containsSeq cs needle

/-- JS `hay.includes(needle)`. -/
def jsIncludes (hay needle : String) : Bool :=
  containsSeq hay.toList needle.toList

/-- The fixed list of substrings classifying an error as retryable
(`retryableMessages` in `App.jsx`, lines 52–61). -/
def retryableMessages : List String :=
  ["network", "timeout", "fetch", "connection", "ECONNREFUSED",
   "ETIMEDOUT", "Failed to fetch", "NetworkError"]

/-- Embedding of `isRetryableError` (`App.jsx`, lines 49–65): a null error
is not retryable; otherwise the lowercased message (empty when absent) is
searched for each of the candidate substrings, themselves lowercased. -/
def isRetryableError (error : Option JsError) : Bool :=
  match error with
  | none => false
  | some e =>
    let errorMessage := jsToLower (e.message.getD "")
    retryableMessages.any (fun msg => jsIncludes errorMessage (jsToLower msg))

/-- Embedding of `getUserFriendlyError` (`App.jsx`, lines 68–100).  The
`String(error)` fallback for message-less errors is abstracted to the
empty string; no claim depends on it. -/
def getUserFriendlyError (error : Option JsError) (operation : String) : String :=
  match error with
  | none => "An unknown error occurred"
  | some e =>
    let errorMsg := e.message.getD ""
    if isRetryableError (some e) then
      "Network error during " ++ operation ++ ". Retrying automatically..."
    else if jsIncludes errorMsg "NotAuthorizedException" then
      "Invalid email or password. Please try again."
    else if jsIncludes errorMsg "UserNotFoundException" then
      "User not found. Please check your email or sign up."
    else if jsIncludes errorMsg "CodeMismatchException" then
      "Invalid verification code. Please check and try again."
    else if jsIncludes errorMsg "ExpiredCodeException" then
      "Verification code expired. Please request a new one."
    else if jsIncludes errorMsg "UsernameExistsException" then
      "An account with this email already exists."
    else if jsIncludes errorMsg "LimitExceededException" then
      "Too many attempts. Please try again later."
    else
      "Error during " ++ operation ++ ": " ++ errorMsg

/-- Embedding of `retryOperation` (`App.jsx`, lines 103–116).  The
operation is modelled as a function from the invocation index (counting
from the initial `currentRetry`) to its outcome.  Besides the final
outcome the embedding returns the number of invocations made and the list
of backoff delays (in ms) waited between consecutive invocations, so that
the timing and attempt-count behaviour is observable. -/
def retryOperation {α : Type} (operation : Nat → Except JsError α)
    (currentRetry : Nat) (maxRetries : Nat) :
    Except JsError α × Nat × List Nat :=
  match operation currentRetry with
  | Except.ok v => (Except.ok v, 1, [])
  | Except.error error =>
    if h : isRetryableError (some error) = true ∧ currentRetry < maxRetries then
      let delay := min (1000 * 2 ^ currentRetry) 5000
      let rest := retryOperation operation (currentRetry + 1) maxRetries
      (rest.1, rest.2.1 + 1, delay :: rest.2.2)
    else
      (Except.error error, 1, [])
termination_by maxRetries + 1 - currentRetry
decreasing_by obtain ⟨-, h2⟩ := h; omega

example : isRetryableError (some ⟨some "A Network error occurred"⟩) = true := by decide
example : isRetryableError (some ⟨some "NotAuthorizedException"⟩) = false := by decide
example : isRetryableError none = false := by decide
example :
    retryOperation (α := Unit) (fun _ => Except.error ⟨some "timeout"⟩) 0 3 =
      (Except.error ⟨some "timeout"⟩, 4, [1000, 2000, 4000]) := by
  have h : isRetryableError (some ⟨some "timeout"⟩) = true := by decide
  simp [retryOperation, h]

theorem retryOperation_ok {α : Type} (operation : Nat → Except JsError α) (c m : Nat)
    (v : α) (hop : operation c = Except.ok v) :
    retryOperation operation c m = (Except.ok v, 1, []) := by
  rw [retryOperation.eq_def, hop]

theorem retryOperation_stop {α : Type} (operation : Nat → Except JsError α) (c m : Nat)
    (e : JsError) (hop : operation c = Except.error e)
    (hnc : ¬(isRetryableError (some e) = true ∧ c < m)) :
    retryOperation operation c m = (Except.error e, 1, []) := by
  rw [retryOperation.eq_def, hop]
  simp only [dif_neg hnc]

theorem retryOperation_retry {α : Type} (operation : Nat → Except JsError α) (c m : Nat)
    (e : JsError) (hop : operation c = Except.error e)
    (hc : isRetryableError (some e) = true ∧ c < m) :
    retryOperation operation c m =
      ((retryOperation operation (c + 1) m).1,
       (retryOperation operation (c + 1) m).2.1 + 1,
       min (1000 * 2 ^ c) 5000 :: (retryOperation operation (c + 1) m).2.2) := by
  rw [retryOperation.eq_def, hop]
  simp only [dif_pos hc]

theorem retryOperation_delays {α : Type} (operation : Nat → Except JsError α) :
    ∀ (fuel c m : Nat), m + 1 - c ≤ fuel →
      (retryOperation operation c m).2.2 =
        (List.range' c (retryOperation operation c m).2.2.length).map
          (fun k => min (1000 * 2 ^ k) 5000) := by
  intro fuel
  induction fuel with
  | zero =>
    intro c m hf
    cases hop : operation c with
    | ok v => rw [retryOperation_ok operation c m v hop]; simp
    | error e =>
      rw [retryOperation_stop operation c m e hop (fun hc => absurd hc.2 (by omega))]
      simp
  | succ n ih =>
    intro c m hf
    cases hop : operation c with
    | ok v => rw [retryOperation_ok operation c m v hop]; simp
    | error e =>
      by_cases hcond : isRetryableError (some e) = true ∧ c < m
      · rw [retryOperation_retry operation c m e hop hcond]
        have ihc := ih (c + 1) m (by omega)
        simp only [List.length_cons, List.range'_succ, List.map_cons]
        exact congrArg _ ihc
      · rw [retryOperation_stop operation c m e hop hcond]
        simp

theorem retryOperation_length_le {α : Type} (operation : Nat → Except JsError α) :
    ∀ (fuel c m : Nat), m + 1 - c ≤ fuel →
      (retryOperation operation c m).2.2.length ≤ m - c := by
  intro fuel
  induction fuel with
  | zero =>
    intro c m hf
    cases hop : operation c with
    | ok v => rw [retryOperation_ok operation c m v hop]; simp
    | error e =>
      rw [retryOperation_stop operation c m e hop (fun hc => absurd hc.2 (by omega))]
      simp
  | succ n ih =>
    intro c m hf
    cases hop : operation c with
    | ok v => rw [retryOperation_ok operation c m v hop]; simp
    | error e =>
      by_cases hcond : isRetryableError (some e) = true ∧ c < m
      · rw [retryOperation_retry operation c m e hop hcond]
        have ihc := ih (c + 1) m (by omega)
        have hlt := hcond.2
        simp only [List.length_cons]
        omega
      · rw [retryOperation_stop operation c m e hop hcond]
        simp

theorem retryOperation_calls {α : Type} (operation : Nat → Except JsError α) :
    ∀ (fuel c m : Nat), m + 1 - c ≤ fuel →
      1 ≤ (retryOperation operation c m).2.1 ∧
      (retryOperation operation c m).2.1 ≤ max (m + 1 - c) 1 := by
  intro fuel
  induction fuel with
  | zero =>
    intro c m hf
    cases hop : operation c with
    | ok v => rw [retryOperation_ok operation c m v hop]; simp
    | error e =>
      rw [retryOperation_stop operation c m e hop (fun hc => absurd hc.2 (by omega))]
      simp
  | succ n ih =>
    intro c m hf
    cases hop : operation c with
    | ok v => rw [retryOperation_ok operation c m v hop]; simp
    | error e =>
      by_cases hcond : isRetryableError (some e) = true ∧ c < m
      · rw [retryOperation_retry operation c m e hop hcond]
        have ihc := ih (c + 1) m (by omega)
        have hlt := hcond.2
        constructor
        · simp
        · have h2 := ihc.2
          simp only []
          omega
      · rw [retryOperation_stop operation c m e hop hcond]
        simp

theorem retryOperation_exhausts {α : Type} (operation : Nat → Except JsError α) :
    ∀ (fuel c m : Nat), m + 1 - c ≤ fuel → c ≤ m →
      (∀ i, c ≤ i → i < m →
        ∃ e, operation i = Except.error e ∧ isRetryableError (some e) = true) →
      (retryOperation operation c m).1 = operation m := by
  intro fuel
  induction fuel with
  | zero =>
    intro c m hf hcm _
    omega
  | succ n ih =>
    intro c m hf hcm hall
    rcases Nat.lt_or_ge c m with hlt | hge
    · obtain ⟨e, hop, hret⟩ := hall c le_rfl hlt
      rw [retryOperation_retry operation c m e hop ⟨hret, hlt⟩]
      exact ih (c + 1) m (by omega) (by omega)
        (fun i hi hi2 => hall i (by omega) hi2)
    · have hceq : c = m := by omega
      subst hceq
      cases hop : operation c with
      | ok v => rw [retryOperation_ok operation c c v hop]
      | error e =>
        rw [retryOperation_stop operation c c e hop (fun hc => absurd hc.2 (by omega))]

/-- C1: for every operation and every retry index k with 0 ≤ k < maxRetries,
`retryOperation` (started at currentRetry = 0) waits exactly
min (1000 * 2^k) 5000 milliseconds before re-invoking the operation: the list
of delays it produces is the schedule k ↦ min (1000 * 2^k) 5000, the number of
retries never exceeds maxRetries, and every delay is capped at 5000 ms. -/
theorem retry_backoff_delay_schedule {α : Type} (operation : Nat → Except JsError α)
    (maxRetries : Nat) :
    (retryOperation operation 0 maxRetries).2.2 =
      (List.range (retryOperation operation 0 maxRetries).2.2.length).map
        (fun k => min (1000 * 2 ^ k) 5000) ∧
    (retryOperation operation 0 maxRetries).2.2.length ≤ maxRetries ∧
    (∀ d ∈ (retryOperation operation 0 maxRetries).2.2, d ≤ 5000) := by
  refine ⟨?_, ?_, ?_⟩
  · rw [List.range_eq_range']
    exact retryOperation_delays operation (maxRetries + 1) 0 maxRetries (by omega)
  · have h := retryOperation_length_le operation (maxRetries + 1) 0 maxRetries (by omega)
    omega
  · intro d hd
    have heq := retryOperation_delays operation (maxRetries + 1) 0 maxRetries (by omega)
    rw [heq] at hd
    obtain ⟨k, -, hk⟩ := List.mem_map.mp hd
    omega

/-- Witness for C1: an always-failing network operation with maxRetries = 3
realises the schedule, and its first delay (1000 ms) respects the cap. -/
theorem retry_backoff_delay_schedule_witness :
    (retryOperation (α := Unit) (fun _ => Except.error ⟨some "connection lost"⟩) 0 3).2.2 =
      (List.range (retryOperation (α := Unit)
          (fun _ => Except.error ⟨some "connection lost"⟩) 0 3).2.2.length).map
        (fun k => min (1000 * 2 ^ k) 5000) ∧ (1000 : Nat) ≤ 5000 := by
  refine ⟨(retry_backoff_delay_schedule _ 3).1, ?_⟩
  refine (retry_backoff_delay_schedule (α := Unit)
    (fun _ => Except.error ⟨some "connection lost"⟩) 3).2.2 1000 ?_
  have h : isRetryableError (some ⟨some "connection lost"⟩) = true := by decide
  simp [retryOperation, h]

/-- C2: with the default maxRetries = 3, `retryOperation` makes at most 4
invocations in total (it is a total function, hence terminating), and when the
first three attempts all throw retryable errors, the error of the fourth and
last attempt is propagated to the caller. -/
theorem retry_attempt_bound_and_propagation {α : Type} (operation : Nat → Except JsError α) :
    (retryOperation operation 0 3).2.1 ≤ 4 ∧
    (∀ e : JsError,
      (∀ i, i < 3 →
        ∃ err, operation i = Except.error err ∧ isRetryableError (some err) = true) →
      operation 3 = Except.error e →
      (retryOperation operation 0 3).1 = Except.error e) := by
  constructor
  · have h := (retryOperation_calls operation 4 0 3 (by omega)).2
    omega
  · intro e hall hlast
    have h := retryOperation_exhausts operation 4 0 3 (by omega) (by omega)
      (fun i _ h3 => hall i h3)
    rw [h, hlast]

/-- Witness for C2 at a concrete operation that always throws a timeout. -/
theorem retry_attempt_bound_and_propagation_witness :
    (retryOperation (α := Unit) (fun _ => Except.error ⟨some "timeout"⟩) 0 3).2.1 ≤ 4 ∧
    (retryOperation (α := Unit) (fun _ => Except.error ⟨some "timeout"⟩) 0 3).1 =
      Except.error ⟨some "timeout"⟩ :=
  ⟨(retry_attempt_bound_and_propagation (fun _ => Except.error ⟨some "timeout"⟩)).1,
   (retry_attempt_bound_and_propagation (fun _ => Except.error ⟨some "timeout"⟩)).2
     ⟨some "timeout"⟩ (fun _ _ => ⟨⟨some "timeout"⟩, rfl, by decide⟩) rfl⟩

/-- C3: `isRetryableError` returns true exactly on the non-null errors whose
lowercased message contains one of the eight fixed substrings of
`retryableMessages`, each compared after lowercasing (i.e. case-insensitively);
and `retryOperation` rethrows an error this classifier rejects immediately:
one single invocation, no backoff delay, and the same error as outcome. -/
theorem retryable_classification_and_rethrow {α : Type}
    (operation : Nat → Except JsError α) (e : JsError) (c m : Nat) :
    (∀ err : Option JsError,
      isRetryableError err = true ↔
        ∃ er : JsError, err = some er ∧
          ∃ msg ∈ retryableMessages,
            jsIncludes (jsToLower (er.message.getD "")) (jsToLower msg) = true) ∧
    (isRetryableError (some e) = false → operation c = Except.error e →
      retryOperation operation c m = (Except.error e, 1, [])) := by
  constructor
  · intro err
    cases err with
    | none => simp [isRetryableError]
    | some er => simp [isRetryableError, List.any_eq_true]
  · intro hfalse hop
    refine retryOperation_stop operation c m e hop (fun hc => ?_)
    rw [hfalse] at hc
    exact absurd hc.1 Bool.false_ne_true

/-- Witness for C3: an auth error is not retryable and is rethrown by
`retryOperation` after a single invocation with no delay. -/
theorem retryable_classification_and_rethrow_witness :
    retryOperation (α := Unit) (fun _ => Except.error ⟨some "NotAuthorizedException"⟩) 0 3 =
      (Except.error ⟨some "NotAuthorizedException"⟩, 1, []) :=
  (retryable_classification_and_rethrow
    (fun _ => Except.error ⟨some "NotAuthorizedException"⟩)
    ⟨some "NotAuthorizedException"⟩ 0 3).2 (by decide) rfl

/-!
CloudWatch logger module (`src/unnamed/part_000`).  The entry constructed by
`addLog` (timestamp plus JSON payload) comes from the environment and is
modelled as an opaque record passed in as a parameter; the outcome of the
`PutLogEvents` send is likewise a parameter.  Each method call is one atomic
state transition.
-/

/-- One buffered log event (the object pushed onto `logBuffer`). -/
structure LogEntry where
  timestamp : Nat
  message : String
deriving DecidableEq, Repr

/-- `MAX_BUFFER_SIZE` from the logger module, line 6. -/
def MAX_BUFFER_SIZE : Nat := 100

/-- State of the `Logger` class.  `client` records whether `this.client` is
non-null; `initDone` models the `isInitialized` flag. -/
structure LoggerState where
  client : Bool
  logStreamName : Option String
  sequenceToken : Option String
  logBuffer : List LogEntry
  initDone : Bool
deriving DecidableEq, Repr

/-- Outcome of the `PutLogEvents` send inside `flush`: success carries the
`nextSequenceToken` of the response, failure is any thrown error. -/
inductive SendOutcome where
  | ok (nextSequenceToken : Option String)
  | fail
deriving DecidableEq, Repr

/-- The catch block of `Logger.flush` (lines 115–123): when the send failed,
the unsent events are re-inserted at the front of the current buffer if it
holds fewer than `MAX_BUFFER_SIZE` entries and dropped otherwise.  The error
itself is swallowed. -/
def flushCatch (s : LoggerState) (logsToSend : List LogEntry) : LoggerState :=
  if s.logBuffer.length < MAX_BUFFER_SIZE then
    { s with logBuffer := logsToSend ++ s.logBuffer }
  else
    s

/-- Embedding of `Logger.flush` (lines 96–124) as one atomic transition: the
guard returns early when there is no client, no initialization or an empty
buffer; otherwise the pending events are removed from the buffer, and the send
either succeeds (updating `sequenceToken`) or fails (entering the catch
block). -/
def flush (s : LoggerState) (send : SendOutcome) : LoggerState :=
  if s.client = false ∨ s.initDone = false ∨ s.logBuffer.length = 0 then s
  else
    let logsToSend := s.logBuffer
    let s1 := { s with logBuffer := [] }
    match send with
    | SendOutcome.ok tok => { s1 with sequenceToken := tok }
    | SendOutcome.fail => flushCatch s1 logsToSend

/-- Embedding of `Logger.addLog` (lines 131–153).  The returned Bool records
whether the size-10 threshold triggered a flush. -/
def addLog (isProd : Bool) (s : LoggerState) (entry : LogEntry) (send : SendOutcome) :
    LoggerState × Bool :=
  if isProd = false ∨ s.initDone = false ∨ MAX_BUFFER_SIZE ≤ s.logBuffer.length then
    (s, false)
  else
    let s1 := { s with logBuffer := s.logBuffer ++ [entry] }
    if 10 ≤ s1.logBuffer.length then (flush s1 send, true) else (s1, false)

/-- An observable operation on the logger: an `addLog` call (with the entry it
would push and the outcome of the flush it may trigger) or a `flush` call (the
periodic timer or an explicit call, with its send outcome). -/
inductive LoggerOp where
  | add (entry : LogEntry) (send : SendOutcome)
  | doFlush (send : SendOutcome)
deriving DecidableEq, Repr

/-- One step of the logger state machine. -/
def loggerStep (isProd : Bool) (s : LoggerState) : LoggerOp → LoggerState
  | LoggerOp.add entry send => (addLog isProd s entry send).1
  | LoggerOp.doFlush send => flush s send

/-- A whole sequence of logger operations. -/
def loggerRun (isProd : Bool) (s : LoggerState) (ops : List LoggerOp) : LoggerState :=
  ops.foldl (loggerStep isProd) s

theorem flush_length_le (s : LoggerState) (send : SendOutcome) :
    (flush s send).logBuffer.length ≤ s.logBuffer.length := by
  unfold flush
  by_cases hg : s.client = false ∨ s.initDone = false ∨ s.logBuffer.length = 0
  · rw [if_pos hg]
  · rw [if_neg hg]
    cases send with
    | ok tok => simp
    | fail =>
      unfold flushCatch
      simp [MAX_BUFFER_SIZE]

theorem addLog_length_le (isProd : Bool) (s : LoggerState) (entry : LogEntry)
    (send : SendOutcome) (h : s.logBuffer.length ≤ MAX_BUFFER_SIZE) :
    ((addLog isProd s entry send).1).logBuffer.length ≤ MAX_BUFFER_SIZE := by
  unfold addLog
  by_cases hg : isProd = false ∨ s.initDone = false ∨ MAX_BUFFER_SIZE ≤ s.logBuffer.length
  · rw [if_pos hg]
    exact h
  · rw [if_neg hg]
    have hlt : s.logBuffer.length < MAX_BUFFER_SIZE := by
      rcases Nat.lt_or_ge s.logBuffer.length MAX_BUFFER_SIZE with h1 | h1
      · exact h1
      · exact absurd (Or.inr (Or.inr h1)) hg
    by_cases h10 : 10 ≤ ({ s with logBuffer := s.logBuffer ++ [entry] } : LoggerState).logBuffer.length
    · rw [if_pos h10]
      refine le_trans (flush_length_le _ send) ?_
      simp
      omega
    · rw [if_neg h10]
      simp
      omega

/-- C4: the telemetry buffer has fixed capacity MAX_BUFFER_SIZE = 100: after
every sequence of addLog and flush operations — including flushes whose send
fails and whose catch block re-inserts the unsent events — a buffer that
started within capacity still holds at most 100 entries. -/
theorem log_buffer_capacity_invariant (isProd : Bool) (s : LoggerState)
    (ops : List LoggerOp) (h : s.logBuffer.length ≤ MAX_BUFFER_SIZE) :
    (loggerRun isProd s ops).logBuffer.length ≤ MAX_BUFFER_SIZE := by
  induction ops generalizing s with
  | nil => exact h
  | cons op rest ih =>
    show (loggerRun isProd (loggerStep isProd s op) rest).logBuffer.length ≤ MAX_BUFFER_SIZE
    refine ih _ ?_
    cases op with
    | add entry send => exact addLog_length_le isProd s entry send h
    | doFlush send => exact le_trans (flush_length_le s send) h

/-- Witness for C4: from the empty buffer, a burst of adds followed by a
failed flush and another add stays within capacity. -/
theorem log_buffer_capacity_invariant_witness :
    (loggerRun true ⟨true, some "stream", none, [], true⟩
      [LoggerOp.add ⟨0, "a"⟩ SendOutcome.fail,
       LoggerOp.doFlush SendOutcome.fail,
       LoggerOp.add ⟨1, "b"⟩ (SendOutcome.ok none)]).logBuffer.length ≤ MAX_BUFFER_SIZE :=
  log_buffer_capacity_invariant true ⟨true, some "stream", none, [], true⟩ _ (by decide)

/-- C5: when flush passes its guard (a client, an initialized logger, a
non-empty buffer), the pending events are removed from the buffer before the
send: a successful send leaves them out and stores the next sequence token,
while a failed send hands them to the catch block together with the now-empty
buffer.  The catch block re-inserts the unsent events at the front of the
buffer exactly when the buffer holds fewer than MAX_BUFFER_SIZE entries and
drops them otherwise; in either case flush returns a state rather than
propagating the failure. -/
theorem flush_removes_then_rebuffers_on_failure (s s2 : LoggerState)
    (tok : Option String) (L : List LogEntry) (hc : s.client = true)
    (hi : s.initDone = true) (hne : s.logBuffer ≠ []) :
    flush s (SendOutcome.ok tok) = { s with logBuffer := [], sequenceToken := tok } ∧
    flush s SendOutcome.fail = flushCatch { s with logBuffer := [] } s.logBuffer ∧
    (s2.logBuffer.length < MAX_BUFFER_SIZE →
      flushCatch s2 L = { s2 with logBuffer := L ++ s2.logBuffer }) ∧
    (MAX_BUFFER_SIZE ≤ s2.logBuffer.length → flushCatch s2 L = s2) := by
  have hg : ¬(s.client = false ∨ s.initDone = false ∨ s.logBuffer.length = 0) := by
    simp [hc, hi]
    exact fun hlen => hne hlen
  refine ⟨?_, ?_, ?_, ?_⟩
  · unfold flush
    rw [if_neg hg]
  · unfold flush
    rw [if_neg hg]
  · intro hlt
    unfold flushCatch
    rw [if_pos hlt]
  · intro hge
    unfold flushCatch
    rw [if_neg (by omega)]

/-- Witness for C5 at a concrete one-event buffer: a failed send restores the
buffer contents. -/
theorem flush_removes_then_rebuffers_on_failure_witness :
    flush ⟨true, some "stream", none, [⟨0, "a"⟩], true⟩ SendOutcome.fail =
      flushCatch ⟨true, some "stream", none, [], true⟩ [⟨0, "a"⟩] :=
  (flush_removes_then_rebuffers_on_failure
    ⟨true, some "stream", none, [⟨0, "a"⟩], true⟩
    ⟨true, some "stream", none, [], true⟩ none [⟨0, "a"⟩]
    rfl rfl (by decide)).2.1

/-- C10: addLog leaves the logger state unchanged (the line is silently
dropped) when not running in production, when not initialized, or when the
buffer already holds at least MAX_BUFFER_SIZE entries; otherwise it appends
exactly the one entry and triggers a flush exactly when the buffer thereby
reaches 10 or more entries. -/
theorem addLog_frame_and_flush_trigger (isProd : Bool) (s : LoggerState)
    (entry : LogEntry) (send : SendOutcome) :
    (isProd = false ∨ s.initDone = false ∨ MAX_BUFFER_SIZE ≤ s.logBuffer.length →
      addLog isProd s entry send = (s, false)) ∧
    (isProd = true → s.initDone = true → s.logBuffer.length < MAX_BUFFER_SIZE →
      ((s.logBuffer.length + 1 < 10 →
        addLog isProd s entry send =
          ({ s with logBuffer := s.logBuffer ++ [entry] }, false)) ∧
       (10 ≤ s.logBuffer.length + 1 →
        addLog isProd s entry send =
          (flush { s with logBuffer := s.logBuffer ++ [entry] } send, true)))) := by
  constructor
  · intro hg
    unfold addLog
    rw [if_pos hg]
  · intro hp hi hlt
    have hg : ¬(isProd = false ∨ s.initDone = false ∨ MAX_BUFFER_SIZE ≤ s.logBuffer.length) := by
      simp [hp, hi]
      omega
    constructor
    · intro h10
      unfold addLog
      rw [if_neg hg, if_neg (by simp; omega)]
    · intro h10
      unfold addLog
      rw [if_neg hg, if_pos (by simp; omega)]

/-- Witness for C10: an uninitialized logger drops the line; an initialized
9-entry-buffer logger in production appends the tenth entry and triggers a
flush. -/
theorem addLog_frame_and_flush_trigger_witness :
    addLog true ⟨true, some "stream", none, [⟨0, "a"⟩], false⟩ ⟨1, "b"⟩ SendOutcome.fail =
      (⟨true, some "stream", none, [⟨0, "a"⟩], false⟩, false) ∧
    addLog true ⟨true, some "stream", none, [], true⟩ ⟨2, "c"⟩ SendOutcome.fail =
      (({ client := true, logStreamName := some "stream", sequenceToken := none,
          logBuffer := [⟨2, "c"⟩], initDone := true } : LoggerState), false) :=
  ⟨(addLog_frame_and_flush_trigger true ⟨true, some "stream", none, [⟨0, "a"⟩], false⟩
      ⟨1, "b"⟩ SendOutcome.fail).1 (Or.inr (Or.inl rfl)),
   ((addLog_frame_and_flush_trigger true ⟨true, some "stream", none, [], true⟩
      ⟨2, "c"⟩ SendOutcome.fail).2 rfl rfl (by decide)).1 (by decide)⟩

/-!
Data schema declaration (`src/amplify/data/resource.ts`).
-/

/-- Scalar field types used by the schema builder. -/
inductive ScalarType where
  | string
  | integer
deriving DecidableEq, Repr

/-- A field declaration: its scalar type and whether `.required()` was
applied. -/
structure FieldSpec where
  type : ScalarType
  required : Bool
deriving DecidableEq, Repr

/-- Access rules available from the `allow` builder. -/
inductive AuthRule where
  | owner
  | authenticated
  | publicApiKey
deriving DecidableEq, Repr

/-- The Recipe model of the schema (resource.ts, lines 3–12): its fields in
declaration order. -/
def recipeModelFields : List (String × FieldSpec) :=
  [("name", ⟨ScalarType.string, true⟩),
   ("ingredients", ⟨ScalarType.string, true⟩),
   ("directions", ⟨ScalarType.string, true⟩),
   ("prepTime", ⟨ScalarType.integer, false⟩)]

/-- The access rules attached to the Recipe model:
`.authorization((allow) => [allow.owner()])`. -/
def recipeAuthRules : List AuthRule := [AuthRule.owner]

/-- `defaultAuthorizationMode` passed to `defineData` (resource.ts,
lines 16–21). -/
def defaultAuthMode : String := "userPool"

/-- C6: the Recipe model declares exactly four scalar fields — name,
ingredients and directions as required strings, prepTime as an optional
integer — and its records are owner-scoped: the only access rule is
allow.owner(), with the user pool as default authorization mode. -/
theorem recipe_schema_shape :
    recipeModelFields.length = 4 ∧
    recipeModelFields.lookup "name" = some ⟨ScalarType.string, true⟩ ∧
    recipeModelFields.lookup "ingredients" = some ⟨ScalarType.string, true⟩ ∧
    recipeModelFields.lookup "directions" = some ⟨ScalarType.string, true⟩ ∧
    recipeModelFields.lookup "prepTime" = some ⟨ScalarType.integer, false⟩ ∧
    recipeAuthRules = [AuthRule.owner] ∧
    defaultAuthMode = "userPool" := by
  decide

/-!
App component state and handlers (`src/src/App.jsx`).  The file contains two
concatenated versions of the component; both delete handlers are embedded.
Backend call outcomes are parameters of the embedded handlers.
-/

/-- A recipe record as held in component state. -/
structure Recipe where
  id : String
  name : String
  ingredients : String
  directions : String
  prepTime : Option Int
deriving DecidableEq, Repr

/-- The component state touched by the handlers under verification.
`hasLastFailedOp` records whether `lastFailedOperation` is non-null (the
stored closure itself is abstracted to its presence). -/
structure AppState where
  recipes : List Recipe
  error : String
  isLoading : Bool
  retryCount : Nat
  hasLastFailedOp : Bool
deriving DecidableEq, Repr

/-- `clearError` (App.jsx, lines 119–123). -/
def clearError (s : AppState) : AppState :=
  { s with error := "", hasLastFailedOp := false, retryCount := 0 }

/-- `loadRecipes` of the first component version (lines 255–277), with the
outcome of the retry-wrapped list call as a parameter. -/
def loadRecipes (s : AppState) (isRetry : Bool)
    (listOutcome : Except JsError (List Recipe)) : AppState :=
  let s0 := if isRetry = false then clearError { s with isLoading := true } else s
  match listOutcome with
  | Except.ok data =>
    { s0 with recipes := data, retryCount := 0, hasLastFailedOp := false,
              isLoading := false }
  | Except.error e =>
    { s0 with error := getUserFriendlyError (some e) "loading recipes",
              hasLastFailedOp := true, isLoading := false }

/-- `handleDeleteRecipe` of the first component version (lines 397–426):
`confirmed` is the result of the `window.confirm` dialog, `deleteOutcome` the
outcome of the retry-wrapped backend delete.  The returned list records the
recipe ids passed to the backend delete call. -/
def handleDeleteRecipe (s : AppState) (confirmed : Bool) (recipeId : String)
    (deleteOutcome : Except JsError Unit)
    (listOutcome : Except JsError (List Recipe)) : AppState × List String :=
  if confirmed = false then (s, [])
  else
    let s1 := clearError { s with isLoading := true }
    match deleteOutcome with
    | Except.ok _ => (loadRecipes s1 true listOutcome, [recipeId])
    | Except.error e =>
      ({ s1 with error := getUserFriendlyError (some e) "deleting recipe",
                 isLoading := false, hasLastFailedOp := true }, [recipeId])

/-- `loadRecipes` of the second component version (lines 889–899): errors are
only logged to the console. -/
def loadRecipes2 (s : AppState) (listOutcome : Except JsError (List Recipe)) : AppState :=
  let s0 := { s with isLoading := true }
  match listOutcome with
  | Except.ok data => { s0 with recipes := data, isLoading := false }
  | Except.error _ => { s0 with isLoading := false }

/-- `handleDeleteRecipe` of the second component version (lines 956–969). -/
def handleDeleteRecipe2 (s : AppState) (confirmed : Bool) (recipeId : String)
    (deleteOutcome : Except JsError Unit)
    (listOutcome : Except JsError (List Recipe)) : AppState × List String :=
  if confirmed = false then (s, [])
  else
    let s1 := { s with isLoading := true }
    match deleteOutcome with
    | Except.ok _ => (loadRecipes2 s1 listOutcome, [recipeId])
    | Except.error e =>
      ({ s1 with error := "Error deleting recipe: " ++ e.message.getD "",
                 isLoading := false }, [recipeId])

/-- C7: the backend delete call is issued only after the user confirms.  A
declined confirmation returns immediately with no delete call and the whole
state — recipes list, error state, loading flag and the rest — unchanged, in
both versions of the handler; a confirmed deletion issues exactly one delete
call for the given id. -/
theorem delete_requires_confirmation (s : AppState) (recipeId : String)
    (deleteOutcome : Except JsError Unit)
    (listOutcome : Except JsError (List Recipe)) :
    handleDeleteRecipe s false recipeId deleteOutcome listOutcome = (s, []) ∧
    handleDeleteRecipe2 s false recipeId deleteOutcome listOutcome = (s, []) ∧
    (handleDeleteRecipe s true recipeId deleteOutcome listOutcome).2 = [recipeId] ∧
    (handleDeleteRecipe2 s true recipeId deleteOutcome listOutcome).2 = [recipeId] := by
  refine ⟨rfl, rfl, ?_, ?_⟩ <;> (cases deleteOutcome <;> rfl)

/-- `filteredRecipes` (App.jsx, lines 434–436 and 977–979, identical in the
two component versions). -/
def filteredRecipes (recipes : List Recipe) (searchTerm : String) : List Recipe :=
  recipes.filter (fun recipe => jsIncludes (jsToLower recipe.name) (jsToLower searchTerm))

theorem containsSeq_nil (hay : List Char) : containsSeq hay [] = true := by
  cases hay with
  | nil => rfl
  | cons c cs => rfl

/-- C8: filteredRecipes keeps exactly the recipes whose lowercased name
contains the lowercased search term as a substring, preserving the relative
order of the recipes list (the result is a sublist); with the empty search
term it is the whole list. -/
theorem filtered_recipes_spec (recipes : List Recipe) (searchTerm : String) :
    List.Sublist (filteredRecipes recipes searchTerm) recipes ∧
    (∀ r : Recipe, r ∈ filteredRecipes recipes searchTerm ↔
      r ∈ recipes ∧ jsIncludes (jsToLower r.name) (jsToLower searchTerm) = true) ∧
    filteredRecipes recipes "" = recipes := by
  refine ⟨List.filter_sublist recipes, fun r => List.mem_filter, ?_⟩
  unfold filteredRecipes
  refine List.filter_eq_self.mpr (fun r _ => ?_)
  show containsSeq (jsToLower r.name).toList (jsToLower "").toList = true
  have hnil : (jsToLower "").toList = [] := by decide
  rw [hnil]
  exact containsSeq_nil _

/-!
Toast queue (`src/src/Usetoast.js`).
-/

/-- A toast as stored in the queue. -/
structure ToastData where
  id : Nat
  message : String
  type : String
  title : Option String
  duration : Nat
deriving DecidableEq, Repr

/-- The options object accepted by addToast; an absent field is `none`. -/
structure ToastOptions where
  type : Option String
  title : Option String
  duration : Option Nat
deriving DecidableEq, Repr

/-- State of the toast system: the module-level `toastIdCounter` together
with the queue held in the hook state. -/
structure ToastState where
  counter : Nat
  toasts : List ToastData
deriving DecidableEq, Repr

/-- `addToast` (Usetoast.js, lines 8–20): `++toastIdCounter` assigns the next
id, the toast is appended at the end of the queue, and the new id is
returned. -/
def addToast (s : ToastState) (message : String) (options : ToastOptions) :
    ToastState × Nat :=
  let id := s.counter + 1
  let t : ToastData :=
    { id := id, message := message, type := options.type.getD "info",
      title := options.title, duration := options.duration.getD 4000 }
  ({ counter := id, toasts := s.toasts ++ [t] }, id)

/-- `removeToast` (Usetoast.js, lines 22–24): keeps exactly the toasts whose
id differs from the argument. -/
def removeToast (s : ToastState) (id : Nat) : ToastState :=
  { s with toasts := s.toasts.filter (fun t => t.id != id) }

/-- Invariant of the toast state: every queued id is at most the counter and
the queued ids are strictly increasing along the queue. -/
def ToastInv (s : ToastState) : Prop :=
  (∀ t ∈ s.toasts, t.id ≤ s.counter) ∧
  (s.toasts.map (fun t => t.id)).Pairwise (· < ·)

/-- C9: under the state invariant (queued ids bounded by the counter and
strictly increasing), addToast assigns a fresh id strictly greater than every
previously assigned id, appends the new toast at the end of the queue and
preserves the invariant, so the queued ids remain distinct; removeToast
removes exactly the toasts whose id equals its argument, keeps the others in
their relative order (a sublist) and preserves the invariant. -/
theorem toast_queue_spec (s : ToastState) (hinv : ToastInv s) (message : String)
    (options : ToastOptions) (rid : Nat) :
    (∀ t ∈ s.toasts, t.id < (addToast s message options).2) ∧
    (addToast s message options).1.toasts =
      s.toasts ++ [{ id := (addToast s message options).2, message := message,
                     type := options.type.getD "info", title := options.title,
                     duration := options.duration.getD 4000 }] ∧
    ToastInv (addToast s message options).1 ∧
    ((addToast s message options).1.toasts.map (fun t => t.id)).Nodup ∧
    (∀ t : ToastData, t ∈ (removeToast s rid).toasts ↔ t ∈ s.toasts ∧ t.id ≠ rid) ∧
    List.Sublist (removeToast s rid).toasts s.toasts ∧
    ToastInv (removeToast s rid) := by
  have hfresh : ∀ t ∈ s.toasts, t.id < s.counter + 1 :=
    fun t ht => Nat.lt_succ_of_le (hinv.1 t ht)
  have hinv1 : ToastInv (addToast s message options).1 := by
    constructor
    · intro t ht
      rcases List.mem_append.mp ht with hold | hnew
      · exact le_trans (hinv.1 t hold) (Nat.le_succ _)
      · rcases List.mem_singleton.mp hnew with rfl
        exact le_refl _
    · show ((s.toasts ++
          [({ id := s.counter + 1, message := message, type := options.type.getD "info",
              title := options.title,
              duration := options.duration.getD 4000 } : ToastData)]).map
            (fun t : ToastData => t.id)).Pairwise (· < ·)
      rw [List.map_append]
      refine List.pairwise_append.mpr ⟨hinv.2, by simp, ?_⟩
      intro a ha b hb
      obtain ⟨t, ht, rfl⟩ := List.mem_map.mp ha
      simp only [List.map_cons, List.map_nil, List.mem_singleton] at hb
      rw [hb]
      exact hfresh t ht
  have hremmem : ∀ t : ToastData,
      t ∈ (removeToast s rid).toasts ↔ t ∈ s.toasts ∧ t.id ≠ rid := by
    intro t
    show t ∈ s.toasts.filter (fun u : ToastData => u.id != rid) ↔ _
    rw [List.mem_filter]
    exact and_congr_right (fun _ => bne_iff_ne)
  have hremsub : List.Sublist (removeToast s rid).toasts s.toasts :=
    List.filter_sublist s.toasts
  refine ⟨hfresh, rfl, hinv1, ?_, hremmem, hremsub, ?_, ?_⟩
  · exact hinv1.2.imp Nat.ne_of_lt
  · intro t ht
    exact hinv.1 t (hremsub.mem ht)
  · exact hinv.2.sublist (hremsub.map (fun t => t.id))

/-- Witness for C9 from the initial empty toast state. -/
theorem toast_queue_spec_witness :
    ToastInv ⟨0, []⟩ ∧
    (addToast ⟨0, []⟩ "saved" ⟨none, none, none⟩).1.toasts =
      [] ++ [{ id := (addToast ⟨0, []⟩ "saved" ⟨none, none, none⟩).2,
               message := "saved", type := "info", title := none,
               duration := 4000 }] := by
  have hinv : ToastInv ⟨0, []⟩ := ⟨by simp, by simp⟩
  exact ⟨hinv, (toast_queue_spec ⟨0, []⟩ hinv "saved" ⟨none, none, none⟩ 7).2.1⟩

end RecipeApp
